import Mathlib

/-!
Shallow embedding of the `bas-set-cpu-affinity` repository
(`src/bas_set_cpu_affinity/core.py` and `src/bas_set_cpu_affinity/cli.py`)
and proofs about its specification.

Conventions of the embedding:
* Python strings are Lean `String`s; character-level work happens on
  `List Char`.
* Python `int(token)` is modelled by `pyIntOfChars` (optional surrounding
  whitespace, optional sign, decimal digits with single underscores
  between digits).
* A process snapshot (`psutil` process) is a `Proc` record carrying its
  pid, name, current affinity list, and injected failure modes for the
  affinity read and write calls, which model the classified per-process
  errors `NoSuchProcess`, `AccessDenied` and generic `OSError`.
* Fallible Python code is embedded in `Except`/`Option`.
-/

namespace BasAffinity

/-- Python whitespace characters stripped by `int(str)`. -/
def isPySpace (c : Char) : Bool :=
  c = ' ' || c = '\t' || c = '\n' || c = '\r' || c = '\x0b' || c = '\x0c'

/-- Tail of a Python integer literal body: decimal digits, where a single
underscore may stand between two digits. -/
def validDigitsAux : List Char → Bool
  | [] => true
  | '_' :: c :: rest => c.isDigit && validDigitsAux rest
  | ['_'] => false
  | c :: rest => c.isDigit && validDigitsAux rest

/-- Body of a Python integer literal: nonempty digits, single underscores
allowed between digits only. -/
def validDigits : List Char → Bool
  | [] => false
  | c :: rest => c.isDigit && validDigitsAux rest

/-- Numeric value of a digit string, ignoring underscores. -/
def digitsValue (cs : List Char) : Nat :=
  cs.foldl (fun acc c => if c.isDigit then acc * 10 + (c.toNat - 48) else acc) 0

/-- Embedding of Python `int(token)` on a list of characters: strips
whitespace, accepts an optional sign, then a valid digit body. -/
def pyIntOfChars (cs : List Char) : Option Int :=
  let cs := ((cs.dropWhile isPySpace).reverse.dropWhile isPySpace).reverse
  match cs with
  | '+' :: rest => if validDigits rest then some (digitsValue rest : Int) else none
  | '-' :: rest => if validDigits rest then some (-(digitsValue rest : Int)) else none
  | rest => if validDigits rest then some (digitsValue rest : Int) else none

/-- Embedding of Python `int(token)` on a string. -/
def pyInt (s : String) : Option Int :=
  pyIntOfChars s.data

/-- Embedding of Python `s.split("-")` for a single-character separator:
`"".split("-") == [""]`, and every hyphen starts a new (possibly empty)
token. -/
def splitOnDash : List Char → List (List Char)
  | [] => [[]]
  | '-' :: rest => [] :: splitOnDash rest
  | c :: rest =>
    match splitOnDash rest with
    | [] => [[c]]
    | t :: ts => (c :: t) :: ts

/-- Conversion of every token with Python `int`, the embedding of the
generator `int(c) for c in core_str.split("-")`: fails as soon as one
token fails. -/
def mapTokens : List (List Char) → Option (List Int)
  | [] => some []
  | t :: ts =>
    match pyIntOfChars t, mapTokens ts with
    | some v, some vs => some (v :: vs)
    | _, _ => none

/-- Embedding of `core.parse_core_string` (core.py lines 60-66):
`sorted(list(set(int(c) for c in core_str.split("-"))))`; a `ValueError`
from any `int` conversion becomes `none` (the `ParseError`). -/
def parse_core_string (s : String) : Option (List Int) :=
  match mapTokens (splitOnDash s.data) with
  | none => none
  | some vals => some (List.insertionSort (· ≤ ·) vals.dedup)

/-- Classified errors the process-inspection service can raise from an
affinity read or write: `psutil.NoSuchProcess`, `psutil.AccessDenied`, and
any other `OSError`/`AttributeError`. -/
inductive OsErr
  | vanished
  | accessDenied
  | other
deriving DecidableEq

/-- Snapshot of one OS process: identity, name, current affinity list, and
the failure mode (if any) its next affinity read and affinity write raise. -/
structure Proc where
  pid : Nat
  name : String
  affinity : List Nat
  readErr : Option OsErr
  writeErr : Option OsErr
deriving DecidableEq

/-- Embedding of Python `s.lower()` on the ASCII process names in play. -/
def pyLower (s : String) : List Char :=
  s.data.map Char.toLower

/-- Embedding of the Python matcher
`any(proc_name.lower() == n.lower() for n in names)` used by
`core.set_affinities` and `core.move_processes_from_main_cores`:
case-insensitive exact equality against a name list. -/
def nameMatches (procName : String) (names : List String) : Bool :=
  names.any (fun n => pyLower procName == pyLower n)

/-- Embedding of `core.handle_main_process` (core.py lines 165-176): read
the current affinity; if its sorted form differs from `target_cores`,
issue one affinity-set call; otherwise do nothing. Returns the updated
process and the number of affinity-set calls issued; raises the injected
read/write error at the corresponding call site. -/
def handle_main_process (p : Proc) (target_cores : List Nat) :
    Except OsErr (Proc × Nat) :=
  match p.readErr with
  | some e => .error e
  | none =>
    let current := p.affinity
    if List.insertionSort (· ≤ ·) current ≠ target_cores then
      match p.writeErr with
      | some e => .error e
      | none => .ok ({ p with affinity := target_cores }, 1)
    else .ok (p, 0)

/-- Embedding of `core.handle_worker_process` (core.py lines 179-190); the
body is identical to `handle_main_process` up to log text. -/
def handle_worker_process (p : Proc) (target_cores : List Nat) :
    Except OsErr (Proc × Nat) :=
  match p.readErr with
  | some e => .error e
  | none =>
    let current := p.affinity
    if List.insertionSort (· ≤ ·) current ≠ target_cores then
      match p.writeErr with
      | some e => .error e
      | none => .ok ({ p with affinity := target_cores }, 1)
    else .ok (p, 0)

/-- The body of `core.set_affinities`' per-process loop iteration
(core.py lines 138-149), without the surrounding `except` clauses: classify
by name (main list first, worker list only on `elif`), call the matching
handler, and set the corresponding found-flag only after the handler
returns. Result: updated process, affinity-set call count, and the two
flag contributions. -/
def set_affinities_body (main_names worker_names : List String)
    (main_cores worker_cores : List Nat) (p : Proc) :
    Except OsErr (Proc × Nat × Bool × Bool) :=
  if nameMatches p.name main_names then
    match handle_main_process p main_cores with
    | .error e => .error e
    | .ok (p', w) => .ok (p', w, true, false)
  else if nameMatches p.name worker_names then
    match handle_worker_process p worker_cores with
    | .error e => .error e
    | .ok (p', w) => .ok (p', w, false, true)
  else .ok (p, 0, false, false)

/-- Embedding of `core.set_affinities` (core.py lines 125-162): iterate the
process snapshot; each iteration's exceptions (`NoSuchProcess`,
`AccessDenied`, `AttributeError`, `OSError`) are caught inside the loop, so
a failing process is skipped and iteration continues. Returns the updated
process list and the pair `(main_processes_found, worker_processes_found)`. -/
def set_affinities (main_names worker_names : List String)
    (main_cores worker_cores : List Nat) : List Proc → List Proc × Bool × Bool
  | [] => ([], false, false)
  | p :: rest =>
    match set_affinities_body main_names worker_names main_cores worker_cores p with
    | .ok (p', _w, fm, fw) =>
      let r := set_affinities main_names worker_names main_cores worker_cores rest
      (p' :: r.1, fm || r.2.1, fw || r.2.2)
    | .error _e =>
      let r := set_affinities main_names worker_names main_cores worker_cores rest
      (p :: r.1, r.2.1, r.2.2)

/-- The body of `core.move_processes_from_main_cores`' per-process loop
iteration (core.py lines 92-115), without the surrounding `except`
clauses: skip pids at or below 4, skip main-named processes, read the
affinity, and if every current core lies in `main_cores`, set the affinity
to `worker_cores`. Returns the updated process and the moved count
contribution (0 or 1). -/
def move_processes_body (main_cores worker_cores : List Nat)
    (main_names : List String) (p : Proc) : Except OsErr (Proc × Nat) :=
  if p.pid ≤ 4 then .ok (p, 0)
  else if nameMatches p.name main_names then .ok (p, 0)
  else
    match p.readErr with
    | some e => .error e
    | none =>
      if p.affinity.all (fun core => decide (core ∈ main_cores)) then
        match p.writeErr with
        | some e => .error e
        | none => .ok ({ p with affinity := worker_cores }, 1)
      else .ok (p, 0)

/-- The per-process loop of `core.move_processes_from_main_cores`
(core.py lines 90-122): per-process exceptions are caught inside the loop,
so a failing process is left as is and iteration continues. Returns the
updated process list and the moved count. -/
def move_processes_loop (main_cores worker_cores : List Nat)
    (main_names : List String) : List Proc → List Proc × Nat
  | [] => ([], 0)
  | p :: rest =>
    let r := move_processes_loop main_cores worker_cores main_names rest
    match move_processes_body main_cores worker_cores main_names p with
    | .ok (p', k) => (p' :: r.1, k + r.2)
    | .error _e => (p :: r.1, r.2)

/-- Embedding of `core.move_processes_from_main_cores` (core.py lines
69-122): if `worker_cores` is empty the function warns and returns without
enumerating processes at all; otherwise it runs the per-process loop. -/
def move_processes_from_main_cores (main_cores worker_cores : List Nat)
    (main_names : List String) (ps : List Proc) : List Proc × Nat :=
  if worker_cores = [] then (ps, 0)
  else move_processes_loop main_cores worker_cores main_names ps

/-- The outcome for a single process of one `move_processes_from_main_cores`
run: unchanged when `worker_cores` is empty or its loop body raised (the
exception is caught), otherwise the body's updated process. -/
def sweepOutcome (main_cores worker_cores : List Nat)
    (main_names : List String) (p : Proc) : Proc :=
  if worker_cores = [] then p
  else
    match move_processes_body main_cores worker_cores main_names p with
    | .ok (p', _) => p'
    | .error _ => p

/-- What happened inside the `try` block of one iteration of
`cli.manage_affinity`'s `while True` loop (cli.py lines 116-137): either
`set_affinities` returned a flag pair, or an exception was raised during
the call — `KeyboardInterrupt`, a `psutil.Error`/`OSError`, or any other
`Exception`. -/
inductive TryEvent
  | result (mainFound workerFound : Bool)
  | kbInterrupt
  | psErr
  | unexpected
deriving DecidableEq

/-- One iteration of the monitoring loop: what the `try` block did, and
whether a `KeyboardInterrupt` was delivered during the `time.sleep` call
that follows the `try`/`except` block (cli.py line 138). -/
structure Cycle where
  ev : TryEvent
  sleepInterrupted : Bool
deriving DecidableEq

/-- How the monitoring loop ended: `finished` when the
`except KeyboardInterrupt` clause ran `break` and `manage_affinity`
returned normally; `interrupted` when a `KeyboardInterrupt` escaped from
`time.sleep`, which sits outside the `try` block, and propagated out of
`manage_affinity`; `running` when the supplied cycle list was exhausted
with the loop still going. -/
inductive LoopEnd
  | finished
  | interrupted
  | running
deriving DecidableEq

/-- Embedding of the `while True` loop of `cli.manage_affinity` (cli.py
lines 114-138), driven by one `Cycle` per iteration; the `Nat` state is
`consecutive_failures`. On a returned flag pair the counter is reset when
either flag is true, otherwise incremented and re-zeroed (with a warning)
at 5; on a caught exception the counter code is skipped entirely. The
`time.sleep` call runs outside the `try`, so a `KeyboardInterrupt` during
it ends the loop as `interrupted`. -/
def run_loop : List Cycle → Nat → LoopEnd × Nat
  | [], cf => (.running, cf)
  | c :: rest, cf =>
    match c.ev with
    | .kbInterrupt => (.finished, cf)
    | .psErr => if c.sleepInterrupted then (.interrupted, cf) else run_loop rest cf
    | .unexpected => if c.sleepInterrupted then (.interrupted, cf) else run_loop rest cf
    | .result m w =>
      let cf₁ := if m || w then 0 else cf + 1
      let cf₂ := if !(m || w) && decide (cf₁ ≥ 5) then 0 else cf₁
      if c.sleepInterrupted then (.interrupted, cf₂) else run_loop rest cf₂

/-- Startup configuration of `cli.manage_affinity`: the validated main
core list, the system core count, and the two name lists. -/
structure Config where
  main_cores : List Nat
  cpu_count : Nat
  main_names : List String
  worker_names : List String
deriving DecidableEq

/-- Embedding of cli.py line 101:
`worker_cores = [c for c in range(cpu_count) if c not in main_cores]`. -/
def worker_cores_of (cfg : Config) : List Nat :=
  (List.range cfg.cpu_count).filter (fun c => !cfg.main_cores.contains c)

/-- Externally visible startup actions of the program. `acquireGuard`
stands for a call to `core.check_single_instance`; `abortNoWorkerCores`
for the `click.Abort` raised at cli.py line 104; `sweep` for the one
`move_processes_from_main_cores` call; `poll` for one `set_affinities`
cycle. -/
inductive Action
  | acquireGuard
  | abortNoWorkerCores
  | sweep
  | poll
deriving DecidableEq

/-- The action sequence `cli.manage_affinity` performs (cli.py lines
76-138) when the loop runs `cycles` poll iterations: abort if the worker
core list is empty, otherwise one sweep followed by the polling cycles. -/
def manage_affinity_actions (cfg : Config) (cycles : Nat) : List Action :=
  if worker_cores_of cfg = [] then [.abortNoWorkerCores]
  else .sweep :: List.replicate cycles .poll

/-- The action sequence of `cli.main` (cli.py lines 141-144): it calls
`manage_affinity()` and nothing else — in particular, no call to
`core.check_single_instance` appears anywhere in cli.py. -/
def main_actions (cfg : Config) (cycles : Nat) : List Action :=
  manage_affinity_actions cfg cycles

/-- Exit status of the whole process for a `manage_affinity` invocation
run under click's standalone command runner: a normal return exits 0; a
`click.Abort` — whether raised directly (empty worker core list) or
produced by click from an uncaught `KeyboardInterrupt` — prints
"Aborted!" and exits 1, as the repository's own test
`test_no_worker_cores` observes. `none` means the loop is still running
(the supplied cycles were exhausted). -/
def manage_affinity_exit (cfg : Config) (cycles : List Cycle) : Option Nat :=
  if worker_cores_of cfg = [] then some 1
  else
    match run_loop cycles 0 with
    | (.finished, _) => some 0
    | (.interrupted, _) => some 1
    | (.running, _) => none

end BasAffinity

deriving instance DecidableEq for Except

namespace BasAffinity

/-! Theorems. -/

/-- A handler call on an error-free process already at a sorted-equal
affinity is a no-op. -/
theorem handle_main_noop (q : Proc) (t : List Nat) (hq : q.readErr = none)
    (ha : List.insertionSort (· ≤ ·) q.affinity = t) :
    handle_main_process q t = .ok (q, 0) := by
  rw [handle_main_process, hq, if_neg (by simp [ha])]

/-- A handler call on an error-free process whose sorted affinity differs
from the target issues the one set call. -/
theorem handle_main_set (q : Proc) (t : List Nat) (hq : q.readErr = none)
    (hw : q.writeErr = none)
    (ha : List.insertionSort (· ≤ ·) q.affinity ≠ t) :
    handle_main_process q t = .ok ({ q with affinity := t }, 1) := by
  rw [handle_main_process, hq, if_pos (by simp [ha]), hw]

/-- The worker handler has the same body as the main handler. -/
theorem handle_worker_eq_main (q : Proc) (t : List Nat) :
    handle_worker_process q t = handle_main_process q t := by
  rw [handle_worker_process, handle_main_process]

/-- Mapping the fallible conversion over a token list fails exactly when
some token fails to convert. -/
theorem mapTokens_eq_none (l : List (List Char)) :
    mapTokens l = none ↔ ∃ t ∈ l, pyIntOfChars t = none := by
  induction l with
  | nil => simp [mapTokens]
  | cons a l ih =>
    rw [mapTokens]
    cases h : pyIntOfChars a with
    | none => simp [h]
    | some v =>
      cases hm : mapTokens l with
      | none => simp [h, hm, ih.mp hm]
      | some vs =>
        simp only [h, hm]
        constructor
        · intro hc; cases hc
        · rintro ⟨t, ht, hnone⟩
          rw [List.mem_cons] at ht
          rcases ht with rfl | ht
          · exact absurd h (by simp [hnone])
          · exact absurd hm (by simp [ih.mpr ⟨t, ht, hnone⟩])

/-- Claim C8: `parse_core_string` splits on hyphens, converts each token
with Python `int`, deduplicates and sorts ascending — so
`parse_core_string "0-2-4" = [0,2,4]` and
`parse_core_string "0-0-1-2-1" = [0,1,2]`; any successful result is sorted
and duplicate-free; and it fails (the `ParseError`) exactly when the input
is empty or some token is not a valid integer, as for `""` and
`"a-b-c"`. -/
theorem parse_core_string_correct :
    (parse_core_string "0-2-4" = some [0, 2, 4] ∧
     parse_core_string "0-0-1-2-1" = some [0, 1, 2] ∧
     parse_core_string "" = none ∧
     parse_core_string "a-b-c" = none) ∧
    (∀ s l, parse_core_string s = some l →
       List.Sorted (· ≤ ·) l ∧ l.Nodup) ∧
    (∀ s : String, parse_core_string s = none ↔
       (s = "" ∨ ∃ t ∈ splitOnDash s.data, pyIntOfChars t = none)) := by
  refine ⟨⟨by decide, by decide, by decide, by decide⟩, ?_, ?_⟩
  · intro s l h
    rw [parse_core_string] at h
    cases hm : mapTokens (splitOnDash s.data) with
    | none => rw [hm] at h; cases h
    | some vals =>
      rw [hm] at h
      have hl : l = List.insertionSort (· ≤ ·) vals.dedup := by
        cases h; rfl
      subst hl
      exact ⟨List.sorted_insertionSort _ _,
        ((List.perm_insertionSort _ _).nodup_iff).mpr (List.nodup_dedup vals)⟩
  · intro s
    have hfail : parse_core_string s = none ↔
        mapTokens (splitOnDash s.data) = none := by
      rw [parse_core_string]
      cases hm : mapTokens (splitOnDash s.data) <;> simp [hm]
    rw [hfail, mapTokens_eq_none]
    constructor
    · exact Or.inr
    · rintro (hs | hex)
      · subst hs
        exact ⟨[], by simp [splitOnDash], by decide⟩
      · exact hex

/-- Claim C8 witness: the hypothesis of the sortedness conjunct holds at a
concrete successful parse. -/
theorem parse_core_string_correct_witness :
    parse_core_string "4-1-4-0" = some [0, 1, 4] ∧
    List.Sorted (· ≤ ·) ([0, 1, 4] : List Int) ∧ ([0, 1, 4] : List Int).Nodup := by
  refine ⟨by decide, ?_, ?_⟩
  · exact (parse_core_string_correct.2.1 "4-1-4-0" [0, 1, 4] (by decide)).1
  · exact (parse_core_string_correct.2.1 "4-1-4-0" [0, 1, 4] (by decide)).2

/-- Claim C1 evaluation: `cli.main` never performs a guard acquisition —
for every configuration and cycle count, `core.check_single_instance`
does not occur in the action sequence of `cli.main`, although the
repository's tests assert that it is called before `manage_affinity`. -/
theorem main_never_acquires_guard (cfg : Config) (cycles : Nat) :
    (main_actions cfg cycles).count Action.acquireGuard = 0 := by
  rw [main_actions, manage_affinity_actions]
  split
  · decide
  · rw [List.count_eq_zero]
    simp [List.mem_replicate]

/-- Claim C9: whenever the worker core list (the complement of the main
cores over the range of the system core count) is empty,
`manage_affinity` raises `click.Abort`, so the process exits with the
non-zero status 1 and neither the sweep nor any polling cycle ever runs. -/
theorem no_worker_cores_aborts (cfg : Config) (cycles : List Cycle) (n : Nat)
    (h : worker_cores_of cfg = []) :
    manage_affinity_exit cfg cycles = some 1 ∧
    manage_affinity_actions cfg n = [Action.abortNoWorkerCores] ∧
    (manage_affinity_actions cfg n).count Action.poll = 0 := by
  refine ⟨?_, ?_, ?_⟩
  · simp [manage_affinity_exit, h]
  · simp [manage_affinity_actions, h]
  · simp [manage_affinity_actions, h]

/-- Claim C9 witness: with 2 cores both reserved as main cores, the worker
core list is empty and the program aborts without polling. -/
theorem no_worker_cores_aborts_witness :
    worker_cores_of ⟨[0, 1], 2, ["m.exe"], ["w.exe"]⟩ = [] ∧
    manage_affinity_exit ⟨[0, 1], 2, ["m.exe"], ["w.exe"]⟩ [] = some 1 ∧
    manage_affinity_actions ⟨[0, 1], 2, ["m.exe"], ["w.exe"]⟩ 3 =
      [Action.abortNoWorkerCores] :=
  ⟨by decide, (no_worker_cores_aborts _ [] 3 (by decide)).1,
    (no_worker_cores_aborts ⟨[0, 1], 2, ["m.exe"], ["w.exe"]⟩ [] 3 (by decide)).2.1⟩

/-- Claim C2 evaluation: `time.sleep` sits outside the loop's `try` block
(cli.py line 138), so a cancellation (`KeyboardInterrupt`) arriving while
the loop is in the Sleeping state escapes `manage_affinity` and click's
standalone runner exits with status 1, not 0 — whereas a cancellation
arriving inside the `try` block is caught, breaks the loop, and exits 0. -/
theorem sleep_interrupt_exits_nonzero :
    manage_affinity_exit ⟨[0, 1], 4, ["FastExecuteScript.exe"], ["worker.exe"]⟩
      [⟨TryEvent.result false false, true⟩] = some 1 ∧
    manage_affinity_exit ⟨[0, 1], 4, ["FastExecuteScript.exe"], ["worker.exe"]⟩
      [⟨TryEvent.kbInterrupt, false⟩] = some 0 := by
  constructor <;> decide

/-- Claim C3 counterexample: a poll cycle that raises leaves the
consecutive-no-match counter unchanged — with the counter at 1 an
exception cycle keeps it at 1, whereas a cycle genuinely returning
`(false, false)` (what the claim says the failure is bookkept as) would
advance it to 2. -/
theorem exception_cycle_counter_counterexample :
    run_loop [⟨TryEvent.result false false, false⟩, ⟨TryEvent.unexpected, false⟩] 0 =
      (LoopEnd.running, 1) ∧
    run_loop [⟨TryEvent.result false false, false⟩,
      ⟨TryEvent.result false false, false⟩] 0 = (LoopEnd.running, 2) := by
  constructor <;> decide

/-- Claim C3 as amended: every exception raised during the poll call is
caught at the loop level and logged, and the loop never ends absent a
cancellation signal; but a cycle whose poll raised leaves the
consecutive-no-match counter unchanged (the bookkeeping is skipped), it
does not advance it as a `(false, false)` result would. -/
theorem poll_failures_never_stop_loop :
    (∀ (cycles : List Cycle) (cf : Nat),
       (∀ c ∈ cycles, c.ev ≠ TryEvent.kbInterrupt ∧ c.sleepInterrupted = false) →
       (run_loop cycles cf).1 = LoopEnd.running) ∧
    (∀ (c : Cycle) (rest : List Cycle) (cf : Nat),
       (c.ev = TryEvent.psErr ∨ c.ev = TryEvent.unexpected) →
       c.sleepInterrupted = false →
       run_loop (c :: rest) cf = run_loop rest cf) := by
  constructor
  · intro cycles
    induction cycles with
    | nil => intro cf _; rfl
    | cons c rest ih =>
      intro cf h
      obtain ⟨hkb, hsl⟩ := h c (List.mem_cons_self c rest)
      have hr : ∀ c' ∈ rest, c'.ev ≠ TryEvent.kbInterrupt ∧ c'.sleepInterrupted = false :=
        fun c' hc' => h c' (List.mem_cons_of_mem c hc')
      rw [run_loop]
      cases hev : c.ev with
      | kbInterrupt => exact absurd hev hkb
      | psErr => rw [hsl]; exact ih cf hr
      | unexpected => rw [hsl]; exact ih cf hr
      | result m w => simp only [hsl, if_false, Bool.false_eq_true]; exact ih _ hr
  · intro c rest cf hev hsl
    rw [run_loop]
    rcases hev with hev | hev <;> rw [hev, hsl] <;> rfl

/-- Claim C3 witness: a run of two exception cycles followed by a
successful one keeps running, and a single caught exception cycle is a
no-op on the loop state. -/
theorem poll_failures_never_stop_loop_witness :
    (run_loop [⟨TryEvent.psErr, false⟩, ⟨TryEvent.unexpected, false⟩,
       ⟨TryEvent.result true false, false⟩] 3).1 = LoopEnd.running ∧
    run_loop [⟨TryEvent.psErr, false⟩] 7 = run_loop [] 7 :=
  ⟨poll_failures_never_stop_loop.1 _ 3 (by
      intro c hc
      simp only [List.mem_cons, List.not_mem_nil, or_false] at hc
      rcases hc with rfl | rfl | rfl <;> exact ⟨by decide, rfl⟩),
    poll_failures_never_stop_loop.2 ⟨TryEvent.psErr, false⟩ [] 7 (Or.inl rfl) rfl⟩

/-- Claim C6: for an error-free process and a sorted target core set (the
CoreSet invariant), each handler reads the current affinity and issues
exactly one affinity-set call — with the target — when the sorted current
list differs from the target, and none otherwise; and a second call on the
handler's result issues zero affinity-set calls, so enforcing twice in
succession on a process already at the target mutates nothing. -/
theorem enforce_idempotent (p : Proc) (t : List Nat)
    (hr : p.readErr = none) (hw : p.writeErr = none)
    (ht : List.insertionSort (· ≤ ·) t = t) :
    (∀ p' n, handle_main_process p t = .ok (p', n) →
       (n = if List.insertionSort (· ≤ ·) p.affinity = t then 0 else 1) ∧
       p'.affinity = (if List.insertionSort (· ≤ ·) p.affinity = t then p.affinity else t) ∧
       handle_main_process p' t = .ok (p', 0)) ∧
    (∀ p' n, handle_worker_process p t = .ok (p', n) →
       (n = if List.insertionSort (· ≤ ·) p.affinity = t then 0 else 1) ∧
       p'.affinity = (if List.insertionSort (· ≤ ·) p.affinity = t then p.affinity else t) ∧
       handle_worker_process p' t = .ok (p', 0)) := by
  have key : ∀ p' n, handle_main_process p t = .ok (p', n) →
      (n = if List.insertionSort (· ≤ ·) p.affinity = t then 0 else 1) ∧
      p'.affinity = (if List.insertionSort (· ≤ ·) p.affinity = t then p.affinity else t) ∧
      handle_main_process p' t = .ok (p', 0) := by
    intro p' n h
    by_cases hc : List.insertionSort (· ≤ ·) p.affinity = t
    · rw [handle_main_noop p t hr hc] at h
      injection h with h'
      injection h' with hp hn
      subst hp; subst hn
      exact ⟨by simp [hc], by simp [hc], handle_main_noop p t hr hc⟩
    · rw [handle_main_set p t hr hw hc] at h
      injection h with h'
      injection h' with hp hn
      subst hp; subst hn
      refine ⟨by simp [hc], by simp [hc], ?_⟩
      exact handle_main_noop _ t hr ht
  refine ⟨key, fun p' n h => ?_⟩
  rw [handle_worker_eq_main] at h
  obtain ⟨h1, h2, h3⟩ := key p' n h
  exact ⟨h1, h2, by rw [handle_worker_eq_main]; exact h3⟩

/-- Claim C6 witness: a process at affinity `[3]` is moved to the sorted
target `[0, 2]` with one set call, and the second invocation on the result
is a no-op. -/
theorem enforce_idempotent_witness :
    List.insertionSort (· ≤ ·) ([0, 2] : List Nat) = [0, 2] ∧
    handle_main_process ⟨3, "a.exe", [3], none, none⟩ [0, 2] =
      .ok (⟨3, "a.exe", [0, 2], none, none⟩, 1) ∧
    handle_main_process ⟨3, "a.exe", [0, 2], none, none⟩ [0, 2] =
      .ok (⟨3, "a.exe", [0, 2], none, none⟩, 0) :=
  ⟨by decide, by decide,
    ((enforce_idempotent ⟨3, "a.exe", [3], none, none⟩ [0, 2] rfl rfl (by decide)).1
      ⟨3, "a.exe", [0, 2], none, none⟩ 1 (by decide)).2.2⟩

/-- Claim C4: a per-process failure in the reconciliation pass or in the
startup sweep is contained by the loop's per-process `except` clauses —
whatever classified error (`NoSuchProcess`, `AccessDenied`, or another
`OSError`) the body raises, the failing process is left as is and every
subsequent process is handled exactly as it would be on its own. -/
theorem per_process_failure_isolated :
    (∀ (mn wn : List String) (mc wc : List Nat) (p : Proc) (rest : List Proc) (e : OsErr),
       set_affinities_body mn wn mc wc p = .error e →
       set_affinities mn wn mc wc (p :: rest) =
         (p :: (set_affinities mn wn mc wc rest).1,
          (set_affinities mn wn mc wc rest).2.1,
          (set_affinities mn wn mc wc rest).2.2)) ∧
    (∀ (mc wc : List Nat) (mn : List String) (p : Proc) (rest : List Proc) (e : OsErr),
       move_processes_body mc wc mn p = .error e →
       move_processes_loop mc wc mn (p :: rest) =
         (p :: (move_processes_loop mc wc mn rest).1,
          (move_processes_loop mc wc mn rest).2)) := by
  constructor
  · intro mn wn mc wc p rest e h
    rw [set_affinities, h]
  · intro mc wc mn p rest e h
    rw [move_processes_loop, h]

/-- Claim C4 witness: a process whose affinity read raises AccessDenied is
skipped, and the following process is still reconciled (worker flag set). -/
theorem per_process_failure_isolated_witness :
    set_affinities_body ["m.exe"] ["worker.exe"] [0] [2]
      ⟨9, "worker.exe", [0], some OsErr.accessDenied, none⟩ = .error OsErr.accessDenied ∧
    set_affinities ["m.exe"] ["worker.exe"] [0] [2]
      [⟨9, "worker.exe", [0], some OsErr.accessDenied, none⟩,
       ⟨10, "worker.exe", [1], none, none⟩] =
      (⟨9, "worker.exe", [0], some OsErr.accessDenied, none⟩ ::
         (set_affinities ["m.exe"] ["worker.exe"] [0] [2]
           [⟨10, "worker.exe", [1], none, none⟩]).1,
       (set_affinities ["m.exe"] ["worker.exe"] [0] [2]
         [⟨10, "worker.exe", [1], none, none⟩]).2.1,
       (set_affinities ["m.exe"] ["worker.exe"] [0] [2]
         [⟨10, "worker.exe", [1], none, none⟩]).2.2) ∧
    (set_affinities ["m.exe"] ["worker.exe"] [0] [2]
      [⟨9, "worker.exe", [0], some OsErr.accessDenied, none⟩,
       ⟨10, "worker.exe", [1], none, none⟩]).2.2 = true :=
  ⟨by decide,
    per_process_failure_isolated.1 ["m.exe"] ["worker.exe"] [0] [2]
      ⟨9, "worker.exe", [0], some OsErr.accessDenied, none⟩
      [⟨10, "worker.exe", [1], none, none⟩] OsErr.accessDenied (by decide),
    by decide⟩

/-- Claim C10: a process whose name matches both the main and the worker
name list (case-insensitively) is classified as Main: the `if` branch for
the main list runs first, the `elif` worker test is never reached, so the
process is enforced to the main core set and only the main found-flag is
set. -/
theorem overlap_classified_as_main (mn wn : List String) (mc wc : List Nat)
    (p : Proc) (hm : nameMatches p.name mn = true) (_hw : nameMatches p.name wn = true)
    (hr : p.readErr = none) (hwr : p.writeErr = none) :
    ∃ p', set_affinities mn wn mc wc [p] = ([p'], true, false) ∧
      p'.affinity =
        (if List.insertionSort (· ≤ ·) p.affinity = mc then p.affinity else mc) := by
  by_cases hc : List.insertionSort (· ≤ ·) p.affinity = mc
  · refine ⟨p, ?_, by simp [hc]⟩
    rw [set_affinities, set_affinities_body, if_pos hm,
      handle_main_noop p mc hr hc, set_affinities]
    rfl
  · refine ⟨{ p with affinity := mc }, ?_, by simp [hc]⟩
    rw [set_affinities, set_affinities_body, if_pos hm,
      handle_main_set p mc hr hwr hc, set_affinities]
    rfl

/-- Claim C10 witness: a process named "Both.exe" matching both lists is
moved to the main cores and reported as a found main process only. -/
theorem overlap_classified_as_main_witness :
    nameMatches "Both.exe" ["both.exe"] = true ∧
    nameMatches "Both.exe" ["BOTH.EXE"] = true ∧
    (∃ p', set_affinities ["both.exe"] ["BOTH.EXE"] [1, 2] [3]
        [⟨7, "Both.exe", [0], none, none⟩] = ([p'], true, false) ∧
      p'.affinity =
        (if List.insertionSort (· ≤ ·) ([0] : List Nat) = [1, 2] then [0] else [1, 2])) :=
  ⟨by decide, by decide,
    overlap_classified_as_main ["both.exe"] ["BOTH.EXE"] [1, 2] [3]
      ⟨7, "Both.exe", [0], none, none⟩ (by decide) (by decide) rfl rfl⟩

/-- A name matches a list exactly when some listed name lowers to the
same characters. -/
theorem nameMatches_iff (s : String) (names : List String) :
    nameMatches s names = true ↔ ∃ nm ∈ names, pyLower s = pyLower nm := by
  simp [nameMatches, List.any_eq_true]

/-- Under case-insensitive disjointness of the two name lists, no name can
match both. -/
theorem not_both_match (mn wn : List String)
    (hdisj : ∀ a ∈ mn, ∀ b ∈ wn, pyLower a ≠ pyLower b) (s : String)
    (hm : nameMatches s mn = true) : nameMatches s wn = false := by
  obtain ⟨a, ha, hla⟩ := (nameMatches_iff s mn).mp hm
  cases hw : nameMatches s wn with
  | false => rfl
  | true =>
    obtain ⟨b, hb, hlb⟩ := (nameMatches_iff s wn).mp hw
    exact absurd (hla.symm.trans hlb) (hdisj a ha b hb)

/-- On an error-free process the per-process body of `set_affinities`
succeeds, and its flag contributions are exactly the two membership
tests, main first. -/
theorem body_ok_of_error_free (mn wn : List String) (mc wc : List Nat)
    (p : Proc) (hr : p.readErr = none) (hw : p.writeErr = none) :
    ∃ p' k, set_affinities_body mn wn mc wc p =
      .ok (p', k, nameMatches p.name mn,
        !nameMatches p.name mn && nameMatches p.name wn) := by
  rw [set_affinities_body]
  cases hm : nameMatches p.name mn with
  | true =>
    by_cases hc : List.insertionSort (· ≤ ·) p.affinity = mc
    · rw [handle_main_noop p mc hr hc]
      exact ⟨p, 0, rfl⟩
    · rw [handle_main_set p mc hr hw hc]
      exact ⟨{ p with affinity := mc }, 1, rfl⟩
  | false =>
    cases hwn : nameMatches p.name wn with
    | true =>
      rw [if_neg (by simp), if_pos rfl, handle_worker_eq_main]
      by_cases hc : List.insertionSort (· ≤ ·) p.affinity = wc
      · rw [handle_main_noop p wc hr hc]
        exact ⟨p, 0, rfl⟩
      · rw [handle_main_set p wc hr hw hc]
        exact ⟨{ p with affinity := wc }, 1, rfl⟩
    | false =>
      rw [if_neg (by simp), if_neg (by simp [hwn])]
      exact ⟨p, 0, rfl⟩

/-- Claim C5 counterexample: the claim quantifies over every pair of name
lists, but for a process whose name sits in both lists `set_affinities`
returns `(true, false)`, not `(true, true)`; and a process matching the
main list whose handler raises (it vanished mid-handling) does not set the
found-flag either, giving `(false, false)` despite a name match. -/
theorem reconcile_found_flags_counterexample :
    nameMatches "x.exe" ["x.exe"] = true ∧
    (set_affinities ["x.exe"] ["x.exe"] [0] [1]
      [⟨5, "x.exe", [0], none, none⟩]).2 = (true, false) ∧
    nameMatches "main.exe" ["main.exe"] = true ∧
    (set_affinities ["main.exe"] ["w.exe"] [0] [1]
      [⟨6, "main.exe", [1], some OsErr.vanished, none⟩]).2 = (false, false) := by
  refine ⟨by decide, by decide, by decide, by decide⟩

/-- Claim C5 as amended: over error-free process snapshots, and with the
two name lists disjoint under lowering, `set_affinities` reports
`mainFound = true` exactly when some process name matches the main list
and `workerFound = true` exactly when some process name matches the
worker list — so `(true, true)` when each list has a match and
`(false, false)` when neither has one; matching is case-insensitive exact
equality, never substring: `"notmain.exe"` does not match `"main.exe"`. -/
theorem reconcile_found_flags :
    (∀ (mn wn : List String) (mc wc : List Nat) (ps : List Proc),
       (∀ p ∈ ps, p.readErr = none ∧ p.writeErr = none) →
       (∀ a ∈ mn, ∀ b ∈ wn, pyLower a ≠ pyLower b) →
       (((set_affinities mn wn mc wc ps).2.1 = true) ↔
          ∃ p ∈ ps, nameMatches p.name mn = true) ∧
       (((set_affinities mn wn mc wc ps).2.2 = true) ↔
          ∃ p ∈ ps, nameMatches p.name wn = true)) ∧
    nameMatches "notmain.exe" ["main.exe"] = false := by
  refine ⟨?_, by decide⟩
  intro mn wn mc wc ps hfree hdisj
  induction ps with
  | nil =>
    rw [set_affinities]
    simp
  | cons p rest ih =>
    obtain ⟨hr, hw⟩ := hfree p (List.mem_cons_self p rest)
    have hfree' : ∀ q ∈ rest, q.readErr = none ∧ q.writeErr = none :=
      fun q hq => hfree q (List.mem_cons_of_mem p hq)
    obtain ⟨ih1, ih2⟩ := ih hfree'
    obtain ⟨p', k, hbody⟩ := body_ok_of_error_free mn wn mc wc p hr hw
    rw [set_affinities, hbody]
    constructor
    · simp only [Bool.or_eq_true, ih1, List.mem_cons]
      constructor
      · rintro (hp | ⟨q, hq, hqm⟩)
        · exact ⟨p, Or.inl rfl, hp⟩
        · exact ⟨q, Or.inr hq, hqm⟩
      · rintro ⟨q, (rfl | hq), hqm⟩
        · exact Or.inl hqm
        · exact Or.inr ⟨q, hq, hqm⟩
    · simp only [Bool.or_eq_true, ih2, List.mem_cons, Bool.and_eq_true,
        Bool.not_eq_eq_eq_not, Bool.not_true]
      cases hm : nameMatches p.name mn with
      | true =>
        have hwn : nameMatches p.name wn = false := not_both_match mn wn hdisj p.name hm
        constructor
        · rintro (⟨hfalse, _⟩ | ⟨q, hq, hqm⟩)
          · cases hfalse
          · exact ⟨q, Or.inr hq, hqm⟩
        · rintro ⟨q, (rfl | hq), hqm⟩
          · exact absurd hqm (by simp [hwn])
          · exact Or.inr ⟨q, hq, hqm⟩
      | false =>
        constructor
        · rintro (⟨_, hp⟩ | ⟨q, hq, hqm⟩)
          · exact ⟨p, Or.inl rfl, hp⟩
          · exact ⟨q, Or.inr hq, hqm⟩
        · rintro ⟨q, (rfl | hq), hqm⟩
          · exact Or.inl ⟨rfl, hqm⟩
          · exact Or.inr ⟨q, hq, hqm⟩

/-- Claim C5 witness: one main match and one worker match, case
differences included, yield the flag pair `(true, true)`. -/
theorem reconcile_found_flags_witness :
    (∀ p ∈ [(⟨10, "main.EXE", [2, 3], none, none⟩ : Proc),
        ⟨11, "Worker.exe", [0], none, none⟩],
       p.readErr = none ∧ p.writeErr = none) ∧
    (∀ a ∈ ["Main.exe"], ∀ b ∈ ["worker.exe"], pyLower a ≠ pyLower b) ∧
    ((set_affinities ["Main.exe"] ["worker.exe"] [0, 1] [2, 3]
        [⟨10, "main.EXE", [2, 3], none, none⟩,
         ⟨11, "Worker.exe", [0], none, none⟩]).2.1 = true ↔
       ∃ p ∈ [(⟨10, "main.EXE", [2, 3], none, none⟩ : Proc),
          ⟨11, "Worker.exe", [0], none, none⟩],
         nameMatches p.name ["Main.exe"] = true) := by
  refine ⟨by decide, by decide, ?_⟩
  exact (reconcile_found_flags.1 ["Main.exe"] ["worker.exe"] [0, 1] [2, 3]
    [⟨10, "main.EXE", [2, 3], none, none⟩, ⟨11, "Worker.exe", [0], none, none⟩]
    (by decide) (by decide)).1

/-- The startup sweep acts pointwise: its resulting process list is the
map of the per-process outcome over the snapshot. -/
theorem sweep_eq_map (mc wc : List Nat) (mn : List String) (ps : List Proc) :
    (move_processes_from_main_cores mc wc mn ps).1 = ps.map (sweepOutcome mc wc mn) := by
  rw [move_processes_from_main_cores]
  by_cases hwc : wc = []
  · rw [if_pos hwc]
    subst hwc
    induction ps with
    | nil => rfl
    | cons p rest ih => rw [List.map_cons, ← ih, sweepOutcome, if_pos rfl]
  · rw [if_neg hwc]
    induction ps with
    | nil => rfl
    | cons p rest ih =>
      rw [move_processes_loop]
      cases hb : move_processes_body mc wc mn p with
      | ok pr => simp [sweepOutcome, hwc, hb, ih]
      | error e => simp [sweepOutcome, hwc, hb, ih]

/-- Claim C7: the sweep's output is the per-process outcome at each
snapshot entry, and that outcome leaves a process untouched when its name
is in the main list, or when its current affinity holds a core outside the
main cores, or when its pid is at or below the system-pid threshold 4; a
process is changed only if its whole affinity lies inside the main cores,
none of the exclusions apply, and then its new affinity is the worker core
list. -/
theorem sweep_never_moves_protected :
    (∀ (mc wc : List Nat) (mn : List String) (ps : List Proc),
       (move_processes_from_main_cores mc wc mn ps).1 = ps.map (sweepOutcome mc wc mn)) ∧
    (∀ (mc wc : List Nat) (mn : List String) (p : Proc),
       (nameMatches p.name mn = true → sweepOutcome mc wc mn p = p) ∧
       ((∃ c ∈ p.affinity, c ∉ mc) → sweepOutcome mc wc mn p = p) ∧
       (p.pid ≤ 4 → sweepOutcome mc wc mn p = p) ∧
       (sweepOutcome mc wc mn p ≠ p →
          (∀ c ∈ p.affinity, c ∈ mc) ∧ nameMatches p.name mn = false ∧
          4 < p.pid ∧ (sweepOutcome mc wc mn p).affinity = wc)) := by
  refine ⟨sweep_eq_map, ?_⟩
  intro mc wc mn p
  by_cases hwc : wc = []
  · refine ⟨fun _ => by rw [sweepOutcome, if_pos hwc],
      fun _ => by rw [sweepOutcome, if_pos hwc],
      fun _ => by rw [sweepOutcome, if_pos hwc],
      fun hne => absurd (by rw [sweepOutcome, if_pos hwc]) hne⟩
  · rw [sweepOutcome, if_neg hwc, move_processes_body]
    by_cases hpid : p.pid ≤ 4
    · rw [if_pos hpid]
      exact ⟨fun _ => rfl, fun _ => rfl, fun _ => rfl, fun hne => absurd rfl hne⟩
    · rw [if_neg hpid]
      cases hm : nameMatches p.name mn with
      | true =>
        rw [if_pos rfl]
        exact ⟨fun _ => rfl, fun _ => rfl, fun _ => rfl, fun hne => absurd rfl hne⟩
      | false =>
        rw [if_neg (by simp)]
        cases hre : p.readErr with
        | some e =>
          exact ⟨fun _ => rfl, fun _ => rfl, fun _ => rfl, fun hne => absurd rfl hne⟩
        | none =>
          by_cases hall : p.affinity.all (fun core => decide (core ∈ mc)) = true
          · rw [if_pos hall]
            cases hwe : p.writeErr with
            | some e =>
              exact ⟨fun _ => rfl, fun _ => rfl, fun _ => rfl, fun hne => absurd rfl hne⟩
            | none =>
              refine ⟨fun hmm => Bool.noConfusion hmm, ?_, fun hp => absurd hp hpid, fun _ => ?_⟩
              · rintro ⟨c, hc, hnot⟩
                rw [List.all_eq_true] at hall
                exact absurd (of_decide_eq_true (hall c hc)) hnot
              · rw [List.all_eq_true] at hall
                exact ⟨fun c hc => of_decide_eq_true (hall c hc), rfl, Nat.lt_of_not_le hpid, rfl⟩
          · rw [if_neg hall]
            exact ⟨fun _ => rfl, fun _ => rfl, fun _ => rfl, fun hne => absurd rfl hne⟩

/-- Claim C7 witness: a stray process camped on the main core is moved to
the worker cores, while a main-named process on the same core is left
alone. -/
theorem sweep_never_moves_protected_witness :
    (move_processes_from_main_cores [0] [1, 2] ["m.exe"]
      [⟨9, "a.exe", [0], none, none⟩]).1 =
      [⟨9, "a.exe", [0], none, none⟩].map (sweepOutcome [0] [1, 2] ["m.exe"]) ∧
    nameMatches "M.exe" ["m.exe"] = true ∧
    sweepOutcome [0] [1, 2] ["m.exe"] ⟨9, "M.exe", [0], none, none⟩ =
      ⟨9, "M.exe", [0], none, none⟩ :=
  ⟨sweep_never_moves_protected.1 [0] [1, 2] ["m.exe"] [⟨9, "a.exe", [0], none, none⟩],
    by decide,
    (sweep_never_moves_protected.2 [0] [1, 2] ["m.exe"]
      ⟨9, "M.exe", [0], none, none⟩).1 (by decide)⟩

end BasAffinity
